import Mathlib

/-!
Shallow embedding of the checkout-and-order lifecycle subsystem of the
Ecommerce Flask project (`app/services/cart.py`, `app/services/checkout.py`,
`app/routes/orders.py`, `app/routes/admin_orders.py`, `app/routes/checkout.py`).

Machine integers are modelled as Lean `Int` (Python ints are unbounded).
The SQLAlchemy session is modelled as an explicit state record `St` holding
the product table, the order table and the session cart.  The asynchronous
payment gateway outcome is passed in as a boolean parameter (`approved`),
since the claims quantify over both outcomes.  Paths on which the Python
code would raise an uncaught exception (e.g. `_deduct_stock` touching a
product that does not exist) are modelled with `Option`: `none` is the
unhandled-exception outcome.
-/

namespace Ecommerce

/-- Embeds `app/models/product.py` — the fields of `Product` that the subsystem
reads or writes. -/
structure Product where
  id : Nat
  name : String
  sku : String
  price_cents : Int
  qty : Int
  status : String
  image_url : String
  deriving Repr, DecidableEq

/-- Embeds `app/models/order.py` — `OrderItem`: immutable snapshot line of an order. -/
structure OrderItem where
  order_id : Nat
  product_id : Nat
  unit_price_cents : Int
  qty : Int
  subtotal_cents : Int
  deriving Repr, DecidableEq

/-- Embeds `app/models/order.py` — `Order`. `placed_at` is a timestamp modelled as
an integer number of seconds. -/
structure Order where
  id : Nat
  user_id : Nat
  status : String
  total_cents : Int
  placed_at : Int
  items : List OrderItem
  deriving Repr, DecidableEq

/-- A line of `CartService.get_cart_summary`'s `items` list
(`app/services/cart.py`, lines 137-147). -/
structure CartLineItem where
  product_id : Nat
  name : String
  sku : String
  qty : Int
  unit_price_cents : Int
  subtotal_cents : Int
  stock_available : Int
  stock_status : String
  image_url : String
  deriving Repr, DecidableEq

/-- The dict returned by `CartService.get_cart_summary`. -/
structure CartSummary where
  items : List CartLineItem
  total_cents : Int
  item_count : Nat
  deriving Repr, DecidableEq

/-- The session cart: the Python dict `product_id -> qty` as an association
list (dict keys are unique; stated as a `Nodup` hypothesis where needed). -/
abbrev Cart := List (Nat × Int)

/-- The durable + session state the subsystem operates on. `next_order_id`
models the autoincrement primary key handed out by `db.session.flush()`. -/
structure St where
  products : List Product
  orders : List Order
  cart : Cart
  next_order_id : Nat
  deriving Repr, DecidableEq

/-- Embeds `CartService.LOW_STOCK_THRESHOLD` (`app/services/cart.py`, line 20). -/
def LOW_STOCK_THRESHOLD : Int := 5

/-- Embeds `CartService._stock_status` (`app/services/cart.py`, lines 86-94). -/
def stock_status_of (p : Product) : String :=
  if p.qty ≤ 0 then "out_of_stock"
  else if p.qty ≤ LOW_STOCK_THRESHOLD then "low_stock"
  else "in_stock"

/-- The per-entry body of the loop in `CartService.get_cart_summary`
(`app/services/cart.py`, lines 123-147): look the product up among the
active products fetched for the cart's ids; skip the entry if absent;
otherwise clamp the quantity to at least 1 and build the line item. -/
def mk_cart_line (products : List Product) (e : Nat × Int) : Option CartLineItem :=
  match products.find? (fun p => p.id == e.1 && p.status == "active") with
  | none => none
  | some p =>
    let q : Int := max 1 e.2
    some { product_id := p.id
           name := p.name
           sku := p.sku
           qty := q
           unit_price_cents := p.price_cents
           subtotal_cents := p.price_cents * q
           stock_available := p.qty
           stock_status := stock_status_of p
           image_url := p.image_url }

/-- Embeds `CartService.get_cart_summary` (`app/services/cart.py`, lines 96-153). -/
def get_cart_summary (products : List Product) (cart : Cart) : CartSummary :=
  if cart.isEmpty then { items := [], total_cents := 0, item_count := 0 }
  else
    let items := cart.filterMap (mk_cart_line products)
    { items := items
      total_cents := (items.map (fun it => it.subtotal_cents)).sum
      item_count := items.length }

/-- Embeds `CheckoutService._validate_stock` (`app/services/checkout.py`,
lines 23-38): `Except.error msg` models the raised `ValueError`. -/
def validate_stock (products : List Product) :
    List CartLineItem → Except String Unit
  | [] => .ok ()
  | item :: rest =>
    match products.find? (fun p => p.id == item.product_id) with
    | none => .error s!"Product {item.product_id} is unavailable."
    | some p =>
      if p.status ≠ "active" then
        .error s!"Product {item.product_id} is unavailable."
      else if p.qty < item.qty then
        .error s!"Insufficient stock for product {p.id} (\x27{p.name}\x27)."
      else
        validate_stock products rest

/-- One step of `CheckoutService._deduct_stock` (`app/services/checkout.py`,
lines 45-48): `Product.query.get` followed by `product.qty -= item.qty`.
A missing product makes the Python loop raise (`product` is `None`),
modelled by `none`. -/
def deduct_one (products : List Product) (item : CartLineItem) :
    Option (List Product) :=
  if products.any (fun p => p.id == item.product_id) then
    some (products.map (fun p =>
      if p.id == item.product_id then { p with qty := p.qty - item.qty } else p))
  else none

/-- Embeds `CheckoutService._deduct_stock` (`app/services/checkout.py`, lines 40-48). -/
def deduct_stock (products : List Product) (items : List CartLineItem) :
    Option (List Product) :=
  items.foldlM deduct_one products

/-- The stock-restoration loop shared by `cancel_order`
(`app/routes/orders.py`, lines 135-138) and `change_order_status`
(`app/routes/admin_orders.py`, lines 140-143): for each order item whose
product still exists, add the item's qty back; silently skip items whose
product is gone (`if item.product:`). -/
def restore_stock (products : List Product) (items : List OrderItem) :
    List Product :=
  items.foldl (fun ps item =>
    ps.map (fun p =>
      if p.id == item.product_id then { p with qty := p.qty + item.qty } else p))
    products

/-- Embeds `CheckoutService._create_order` (`app/services/checkout.py`,
lines 50-74). `order_id` is the id obtained from `db.session.flush()`. -/
def create_order (user_id : Nat) (summary : CartSummary) (order_id : Nat)
    (now : Int) : Order :=
  { id := order_id
    user_id := user_id
    status := "pending"
    total_cents := summary.total_cents
    placed_at := now
    items := summary.items.map (fun it =>
      { order_id := order_id
        product_id := it.product_id
        unit_price_cents := it.unit_price_cents
        qty := it.qty
        subtotal_cents := it.subtotal_cents }) }

/-- Seconds in a day; `timedelta(days=3)` is `3 * seconds_per_day`. -/
def seconds_per_day : Int := 86400

/-- Embeds `CheckoutService.estimate_delivery_date` (`app/services/checkout.py`,
lines 76-78): `datetime.utcnow() + timedelta(days=3)`. -/
def estimate_delivery_date (now : Int) : Int :=
  now + 3 * seconds_per_day

/-- Update the status of the order with the given id (the ORM mutation
`order.status = ...` followed by `db.session.add(order)`). -/
def set_order_status (orders : List Order) (order_id : Nat) (status : String) :
    List Order :=
  orders.map (fun o => if o.id == order_id then { o with status := status } else o)

/-- The dict returned by `CheckoutService.process_checkout`. -/
inductive CheckoutResult where
  | failure (error : String)
  | success (order_id : Nat) (total_cents : Int) (delivery_estimate : Int)
  deriving Repr, DecidableEq

/-- Embeds `CheckoutService.process_checkout` (`app/services/checkout.py`,
lines 80-133).  `approved` is the (nondeterministic) outcome of
`PaymentService.process_payment`; `now` stands for `datetime.utcnow()`.
`none` is an uncaught exception (never reached after validation passes,
proved below). -/
def process_checkout (user_id : Nat) (approved : Bool) (now : Int) (st : St) :
    Option (CheckoutResult × St) :=
  let summary := get_cart_summary st.products st.cart
  if summary.item_count == 0 then
    some (.failure "Cart is empty.", st)
  else
    match validate_stock st.products summary.items with
    | .error msg => some (.failure msg, st)
    | .ok _ =>
      let order := create_order user_id summary st.next_order_id now
      match deduct_stock st.products summary.items with
      | none => none
      | some products1 =>
        let st1 : St :=
          { st with
            products := products1
            orders := st.orders ++ [order]
            next_order_id := st.next_order_id + 1 }
        if !approved then
          some (.failure "Payment declined.",
                { st1 with orders := set_order_status st1.orders order.id "canceled" })
        else
          some (.success order.id order.total_cents (estimate_delivery_date now),
                { st1 with
                  orders := set_order_status st1.orders order.id "paid"
                  cart := [] })

/-- An HTTP-level outcome: `ok` is a 200 JSON body carrying the order's
representation; `err code msg` is `jsonify({"error": msg}), code`. -/
inductive HttpResult where
  | ok (order : Order)
  | err (code : Nat) (msg : String)
  deriving Repr, DecidableEq

/-- Embeds `Order.query.get(order_id)`. -/
def find_order (orders : List Order) (order_id : Nat) : Option Order :=
  orders.find? (fun o => o.id == order_id)

/-- Embeds `ALLOWED_STATUSES` (`app/routes/admin_orders.py`, lines 30-35). -/
def ALLOWED_STATUSES : List String := ["pending", "paid", "shipped", "canceled"]

/-- Embeds `change_order_status` (`app/routes/admin_orders.py`, lines 108-156),
after the `admin_required` guard.  `new_status` is `data.get("status")`
(`none` when the key is absent). -/
def change_order_status (order_id : Nat) (new_status : Option String) (st : St) :
    HttpResult × St :=
  match find_order st.orders order_id with
  | none => (.err 404 "Order not found", st)
  | some order =>
    match new_status with
    | none => (.err 400 "Invalid status", st)
    | some ns =>
      if ns ∉ ALLOWED_STATUSES then (.err 400 "Invalid status", st)
      else
        let previous_status := order.status
        if previous_status = "shipped" ∧ ns = "canceled" then
          (.err 400 "Cannot cancel a shipped order", st)
        else
          let products1 :=
            if ns = "canceled" ∧ previous_status ≠ "canceled" then
              restore_stock st.products order.items
            else st.products
          (.ok { order with status := ns },
           { st with
             products := products1
             orders := set_order_status st.orders order_id ns })

/-- Embeds `_user_can_access_order` (`app/routes/orders.py`, lines 20-33):
`role` is `session.get("role")`. -/
def user_can_access_order (current_user : Nat) (role : Option String)
    (order : Order) : Bool :=
  if role == some "admin" then true else order.user_id == current_user

/-- Embeds `cancel_order` (`app/routes/orders.py`, lines 112-144), after the
`login_required` guard (so `current_user` is present). -/
def cancel_order (current_user : Nat) (role : Option String) (order_id : Nat)
    (st : St) : HttpResult × St :=
  match find_order st.orders order_id with
  | none => (.err 404 "Order not found", st)
  | some order =>
    if ¬ user_can_access_order current_user role order then
      (.err 403 "Forbidden", st)
    else if order.status ≠ "pending" then
      (.err 400 "Only pending orders can be canceled", st)
    else
      (.ok { order with status := "canceled" },
       { st with
         products := restore_stock st.products order.items
         orders := set_order_status st.orders order_id "canceled" })

/-- Python `session.get("user_id") or 1` (`app/routes/checkout.py`,
line 53): `None` and `0` are both falsy. -/
def user_id_or_default (session_user : Option Nat) : Nat :=
  match session_user with
  | none => 1
  | some u => if u == 0 then 1 else u

/-- Embeds `checkout_process` (`app/routes/checkout.py`, lines 45-61): the POST
/checkout route.  It has no `login_required` decorator; the result is the
HTTP status code paired with the checkout result body. -/
def checkout_process_route (session_user : Option Nat) (approved : Bool)
    (now : Int) (st : St) : Option ((Nat × CheckoutResult) × St) :=
  let uid := user_id_or_default session_user
  match process_checkout uid approved now st with
  | none => none
  | some (r, st1) =>
    match r with
    | .failure e => some ((400, .failure e), st1)
    | .success oid tc de => some ((200, .success oid tc de), st1)

/-! Helper vocabulary and lemmas. -/

/-- Total quantity the cart line items request for a given product id. -/
def cart_qty_for (items : List CartLineItem) (pid : Nat) : Int :=
  ((items.filter (fun it => it.product_id == pid)).map (fun it => it.qty)).sum

/-- Total quantity the order items record for a given product id. -/
def order_qty_for (items : List OrderItem) (pid : Nat) : Int :=
  ((items.filter (fun it => it.product_id == pid)).map (fun it => it.qty)).sum

theorem restore_stock_eq (products : List Product) (items : List OrderItem) :
    restore_stock products items
      = products.map (fun p => { p with qty := p.qty + order_qty_for items p.id }) := by
  induction items generalizing products with
  | nil =>
    simp only [restore_stock, List.foldl_nil, order_qty_for, List.filter_nil,
      List.map_nil, List.sum_nil, add_zero]
    exact (List.map_id products).symm
  | cons it its ih =>
    simp only [restore_stock, List.foldl_cons] at *
    rw [ih, List.map_map]
    apply List.map_congr_left
    intro p _
    simp only [Function.comp_apply, order_qty_for, List.filter_cons]
    by_cases h : it.product_id = p.id
    · simp [h, add_assoc]
    · have h1 : (p.id == it.product_id) = false := by simp [Ne.symm h]
      have h2 : (it.product_id == p.id) = false := by simp [h]
      simp [h1, h2]

theorem deduct_stock_eq (products : List Product) (items : List CartLineItem)
    (h : ∀ it ∈ items, ∃ p ∈ products, p.id = it.product_id) :
    deduct_stock products items
      = some (products.map
          (fun p => { p with qty := p.qty - cart_qty_for items p.id })) := by
  induction items generalizing products with
  | nil =>
    simp only [deduct_stock, List.foldlM_nil]
    have : products.map
        (fun p => { p with qty := p.qty - cart_qty_for [] p.id }) = products := by
      conv_rhs => rw [← List.map_id products]
      apply List.map_congr_left
      intro p _
      simp [cart_qty_for]
    rw [this]
    rfl
  | cons it its ih =>
    obtain ⟨p0, hp0, hid⟩ := h it (List.mem_cons_self it its)
    have hany : products.any (fun p => p.id == it.product_id) = true :=
      List.any_eq_true.mpr ⟨p0, hp0, by simp [hid]⟩
    have hstep : deduct_one products it
        = some (products.map (fun p =>
            if p.id == it.product_id then { p with qty := p.qty - it.qty } else p)) := by
      simp [deduct_one, hany]
    have hpresid : ∀ q : Product,
        ((fun p => if p.id == it.product_id
            then { p with qty := p.qty - it.qty } else p) q).id = q.id := by
      intro q
      by_cases hc : q.id = it.product_id <;> simp [hc]
    have htail : ∀ it' ∈ its,
        ∃ p ∈ products.map (fun p =>
            if p.id == it.product_id then { p with qty := p.qty - it.qty } else p),
          p.id = it'.product_id := by
      intro it' hit'
      obtain ⟨q, hq, hqid⟩ := h it' (List.mem_cons_of_mem it hit')
      exact ⟨_, List.mem_map_of_mem _ hq, (hpresid q).trans hqid⟩
    calc deduct_stock products (it :: its)
        = deduct_stock (products.map (fun p =>
            if p.id == it.product_id then { p with qty := p.qty - it.qty } else p)) its := by
          simp only [deduct_stock, List.foldlM_cons, hstep, Option.bind_eq_bind,
            Option.some_bind]
      _ = _ := by
          rw [ih _ htail, List.map_map]
          congr 1
          apply List.map_congr_left
          intro p _
          simp only [Function.comp_apply, cart_qty_for, List.filter_cons]
          by_cases hc : it.product_id = p.id
          · have h1 : (p.id == it.product_id) = true := by simp [hc.symm]
            simp [hc, h1, sub_sub]
          · have h1 : (p.id == it.product_id) = false := by simp [Ne.symm hc]
            have h2 : (it.product_id == p.id) = false := by simp [hc]
            simp [h1, h2]

theorem validate_stock_ok (products : List Product) (items : List CartLineItem)
    (h : validate_stock products items = .ok ()) :
    ∀ it ∈ items, ∃ p, products.find? (fun q => q.id == it.product_id) = some p ∧
      p.status = "active" ∧ it.qty ≤ p.qty := by
  induction items with
  | nil => intro it hit; cases hit
  | cons item rest ih =>
    intro it hit
    cases hf : products.find? (fun q => q.id == item.product_id) with
    | none => rw [validate_stock, hf] at h; simp at h
    | some p =>
      rw [validate_stock, hf] at h
      by_cases hs : p.status = "active"
      · by_cases hq : p.qty < item.qty
        · simp [hs, hq] at h
        · simp only [hs, hq, ne_eq, not_true_eq_false, if_false, ite_false] at h
          rcases List.mem_cons.mp hit with rfl | hmem
          · exact ⟨p, hf, hs, not_lt.mp hq⟩
          · exact ih h it hmem
      · simp [hs] at h

theorem validate_stock_ok_mem (products : List Product) (items : List CartLineItem)
    (h : validate_stock products items = .ok ()) :
    ∀ it ∈ items, ∃ p ∈ products, p.id = it.product_id := by
  intro it hit
  obtain ⟨p, hf, -, -⟩ := validate_stock_ok products items h it hit
  refine ⟨p, List.mem_of_find?_eq_some hf, ?_⟩
  have := List.find?_some hf
  simpa using this

theorem get_cart_summary_items (products : List Product) (cart : Cart) :
    (get_cart_summary products cart).items = cart.filterMap (mk_cart_line products) := by
  cases cart <;> simp [get_cart_summary]

theorem get_cart_summary_total (products : List Product) (cart : Cart) :
    (get_cart_summary products cart).total_cents
      = ((get_cart_summary products cart).items.map (fun it => it.subtotal_cents)).sum := by
  cases cart <;> simp [get_cart_summary]

theorem get_cart_summary_count (products : List Product) (cart : Cart) :
    (get_cart_summary products cart).item_count
      = (get_cart_summary products cart).items.length := by
  cases cart <;> simp [get_cart_summary]

theorem mk_cart_line_some (products : List Product) (e : Nat × Int)
    (it : CartLineItem) (h : mk_cart_line products e = some it) :
    it.product_id = e.1 ∧ 1 ≤ it.qty ∧
      it.subtotal_cents = it.unit_price_cents * it.qty ∧
      ∃ p ∈ products, p.id = e.1 ∧ p.status = "active" := by
  unfold mk_cart_line at h
  cases hf : products.find? (fun p => p.id == e.1 && p.status == "active") with
  | none => rw [hf] at h; cases h
  | some p =>
    rw [hf] at h
    have hpred := List.find?_some hf
    have hmem := List.mem_of_find?_eq_some hf
    simp only [Bool.and_eq_true, beq_iff_eq] at hpred
    obtain ⟨hid, hst⟩ := hpred
    cases h
    refine ⟨hid, le_max_left 1 e.2, ?_, p, hmem, hid, hst⟩
    simp [mul_comm]

theorem summary_items_shape (products : List Product) (cart : Cart) :
    ∀ it ∈ (get_cart_summary products cart).items,
      1 ≤ it.qty ∧ it.subtotal_cents = it.unit_price_cents * it.qty ∧
      ∃ p ∈ products, p.id = it.product_id ∧ p.status = "active" := by
  intro it hit
  rw [get_cart_summary_items] at hit
  obtain ⟨e, he, hmk⟩ := List.mem_filterMap.mp hit
  obtain ⟨hpid, hq, hsub, p, hp, hpe, hst⟩ := mk_cart_line_some products e it hmk
  exact ⟨hq, hsub, p, hp, hpe.trans hpid.symm, hst⟩

theorem summary_pids_sublist (products : List Product) (cart : Cart) :
    ((get_cart_summary products cart).items.map
        (fun it => it.product_id)).Sublist (cart.map Prod.fst) := by
  rw [get_cart_summary_items]
  induction cart with
  | nil => simp
  | cons e rest ih =>
    cases h : mk_cart_line products e with
    | none =>
      simp only [List.filterMap_cons, h, List.map_cons]
      exact ih.cons e.1
    | some it =>
      simp only [List.filterMap_cons, h, List.map_cons,
        (mk_cart_line_some products e it h).1]
      exact ih.cons₂ e.1

theorem summary_pids_nodup (products : List Product) (cart : Cart)
    (h : (cart.map Prod.fst).Nodup) :
    ((get_cart_summary products cart).items.map (fun it => it.product_id)).Nodup :=
  (summary_pids_sublist products cart).nodup h

theorem cart_qty_for_of_nodup (items : List CartLineItem)
    (hnd : (items.map (fun it => it.product_id)).Nodup)
    (it : CartLineItem) (hmem : it ∈ items) :
    cart_qty_for items it.product_id = it.qty := by
  induction items with
  | nil => cases hmem
  | cons hd tl ih =>
    simp only [List.map_cons, List.nodup_cons] at hnd
    rcases List.mem_cons.mp hmem with rfl | hmem'
    · have htl : (tl.filter (fun x => x.product_id == it.product_id)) = [] := by
        rw [List.filter_eq_nil_iff]
        intro x hx
        simp only [beq_iff_eq]
        intro hcontra
        exact hnd.1 (hcontra ▸ List.mem_map_of_mem (fun y => y.product_id) hx)
      simp [cart_qty_for, List.filter_cons, htl]
    · have hne : (hd.product_id == it.product_id) = false := by
        simp only [beq_eq_false_iff_ne, ne_eq]
        intro hcontra
        exact hnd.1 (hcontra ▸ List.mem_map_of_mem (fun y => y.product_id) hmem')
      have := ih hnd.2 hmem'
      simp only [cart_qty_for, List.filter_cons, hne, if_false, ite_false] at *
      exact this

theorem cart_qty_for_of_not_mem (items : List CartLineItem) (pid : Nat)
    (h : ∀ it ∈ items, it.product_id ≠ pid) :
    cart_qty_for items pid = 0 := by
  have : items.filter (fun it => it.product_id == pid) = [] := by
    rw [List.filter_eq_nil_iff]
    intro it hit
    simpa using h it hit
  simp [cart_qty_for, this]

theorem order_qty_for_nonneg (items : List OrderItem)
    (h : ∀ it ∈ items, 0 ≤ it.qty) (pid : Nat) :
    0 ≤ order_qty_for items pid := by
  apply List.sum_nonneg
  intro x hx
  obtain ⟨it, hit, rfl⟩ := List.mem_map.mp hx
  exact h it (List.mem_of_mem_filter hit)

theorem find_product_eq (products : List Product)
    (hnd : (products.map Product.id).Nodup) (p : Product) (hp : p ∈ products)
    (q : Product) (hq : products.find? (fun r => r.id == p.id) = some q) : q = p := by
  have hqmem := List.mem_of_find?_eq_some hq
  have hqid : q.id = p.id := by simpa using List.find?_some hq
  exact List.inj_on_of_nodup_map hnd hqmem hp hqid

theorem mem_set_order_status (orders : List Order) (oid : Nat) (s : String)
    (o : Order) (h : o ∈ set_order_status orders oid s) :
    ∃ o' ∈ orders, o = o' ∨ o = { o' with status := s } := by
  simp only [set_order_status, List.mem_map] at h
  obtain ⟨o', ho', rfl⟩ := h
  by_cases hc : o'.id = oid
  · refine ⟨o', ho', Or.inr ?_⟩
    simp only [hc, beq_self_eq_true, if_true, ite_true]
  · refine ⟨o', ho', Or.inl ?_⟩
    simp [hc]

theorem set_order_status_mem_of_mem (orders : List Order) (oid : Nat) (s : String)
    (o : Order) (h : o ∈ orders) (hid : o.id = oid) :
    { o with status := s } ∈ set_order_status orders oid s := by
  simp only [set_order_status, List.mem_map]
  exact ⟨o, h, by simp [hid]⟩

theorem process_checkout_empty (uid : Nat) (approved : Bool) (now : Int) (st : St)
    (hc : (get_cart_summary st.products st.cart).item_count = 0) :
    process_checkout uid approved now st = some (.failure "Cart is empty.", st) := by
  unfold process_checkout
  simp [hc]

theorem validate_error_count_ne_zero (st : St) (msg : String)
    (hval : validate_stock st.products (get_cart_summary st.products st.cart).items
      = .error msg) :
    (get_cart_summary st.products st.cart).item_count ≠ 0 := by
  intro hc
  rw [get_cart_summary_count] at hc
  rw [List.length_eq_zero.mp hc] at hval
  rw [validate_stock] at hval
  cases hval

theorem process_checkout_invalid (uid : Nat) (approved : Bool) (now : Int) (st : St)
    (msg : String)
    (hval : validate_stock st.products (get_cart_summary st.products st.cart).items
      = .error msg) :
    process_checkout uid approved now st = some (.failure msg, st) := by
  have hne := validate_error_count_ne_zero st msg hval
  have hc : ((get_cart_summary st.products st.cart).item_count == 0) = false := by
    simpa using hne
  unfold process_checkout
  simp only [hc, Bool.false_eq_true, if_false, ite_false, hval]

theorem process_checkout_reserved (uid : Nat) (approved : Bool) (now : Int) (st : St)
    (hne : (get_cart_summary st.products st.cart).item_count ≠ 0)
    (hval : validate_stock st.products (get_cart_summary st.products st.cart).items
      = .ok ()) :
    process_checkout uid approved now st = some
      ((if approved then
          CheckoutResult.success st.next_order_id
            (get_cart_summary st.products st.cart).total_cents
            (estimate_delivery_date now)
        else CheckoutResult.failure "Payment declined."),
       { products := st.products.map (fun p =>
           { p with qty := p.qty
               - cart_qty_for (get_cart_summary st.products st.cart).items p.id })
         orders := set_order_status
           (st.orders ++ [create_order uid (get_cart_summary st.products st.cart)
              st.next_order_id now])
           st.next_order_id (if approved then "paid" else "canceled")
         cart := if approved then [] else st.cart
         next_order_id := st.next_order_id + 1 }) := by
  have hded := deduct_stock_eq st.products _ (validate_stock_ok_mem st.products _ hval)
  have hc : ((get_cart_summary st.products st.cart).item_count == 0) = false := by
    simpa using hne
  unfold process_checkout
  simp only [hc, Bool.false_eq_true, if_false, ite_false, hval, hded]
  cases approved <;> simp [create_order]

theorem process_checkout_total (uid : Nat) (approved : Bool) (now : Int) (st : St) :
    ∃ r st', process_checkout uid approved now st = some (r, st') := by
  by_cases hc : (get_cart_summary st.products st.cart).item_count = 0
  · exact ⟨_, _, process_checkout_empty uid approved now st hc⟩
  · cases hval : validate_stock st.products (get_cart_summary st.products st.cart).items with
    | error msg => exact ⟨_, _, process_checkout_invalid uid approved now st msg hval⟩
    | ok u => cases u; exact ⟨_, _, process_checkout_reserved uid approved now st hc hval⟩

/-- Money invariant of a single order: the total is the sum of the item
subtotals and each subtotal is unit price times quantity. -/
def order_invariant (o : Order) : Prop :=
  o.total_cents = (o.items.map (fun it => it.subtotal_cents)).sum ∧
  ∀ it ∈ o.items, it.subtotal_cents = it.unit_price_cents * it.qty

instance (o : Order) : Decidable (order_invariant o) := by
  unfold order_invariant; infer_instance

/-- All orders of a state satisfy the money invariant. -/
def orders_invariant (st : St) : Prop := ∀ o ∈ st.orders, order_invariant o

instance (st : St) : Decidable (orders_invariant st) := by
  unfold orders_invariant; infer_instance

theorem order_invariant_status (o : Order) (s : String)
    (h : order_invariant o) : order_invariant { o with status := s } := h

theorem create_order_invariant (uid : Nat) (products : List Product) (cart : Cart)
    (oid : Nat) (now : Int) :
    order_invariant (create_order uid (get_cart_summary products cart) oid now) := by
  constructor
  · simp only [create_order, List.map_map]
    rw [get_cart_summary_total]
    rfl
  · intro it hit
    simp only [create_order, List.mem_map] at hit
    obtain ⟨cit, hcit, rfl⟩ := hit
    exact (summary_items_shape products cart cit hcit).2.1

theorem orders_invariant_set_order_status (orders : List Order) (oid : Nat)
    (s : String) (h : ∀ o ∈ orders, order_invariant o) :
    ∀ o ∈ set_order_status orders oid s, order_invariant o := by
  intro o ho
  obtain ⟨o2, ho2, heq⟩ := mem_set_order_status orders oid s o ho
  rcases heq with h1 | h1
  · rw [h1]; exact h o2 ho2
  · rw [h1]; exact order_invariant_status o2 s (h o2 ho2)

theorem change_order_status_orders (oid : Nat) (ns : Option String) (st : St) :
    (change_order_status oid ns st).2.orders = st.orders ∨
    ∃ s, (change_order_status oid ns st).2.orders = set_order_status st.orders oid s := by
  unfold change_order_status
  cases hf : find_order st.orders oid with
  | none => left; simp [hf]
  | some o =>
    simp only [hf]
    cases ns with
    | none => left; rfl
    | some s =>
      dsimp only
      by_cases h1 : s ∉ ALLOWED_STATUSES
      · left; rw [if_pos h1]
      · rw [if_neg h1]
        by_cases h2 : o.status = "shipped" ∧ s = "canceled"
        · left; rw [if_pos h2]
        · rw [if_neg h2]
          right; exact ⟨s, rfl⟩

theorem cancel_order_orders (cu : Nat) (role : Option String) (oid : Nat) (st : St) :
    (cancel_order cu role oid st).2.orders = st.orders ∨
    (cancel_order cu role oid st).2.orders
      = set_order_status st.orders oid "canceled" := by
  unfold cancel_order
  cases hf : find_order st.orders oid with
  | none => left; rfl
  | some o =>
    by_cases h1 : user_can_access_order cu role o = true
    · by_cases h2 : o.status = "pending"
      · right; simp [h1, h2]
      · left; simp [h1, h2]
    · left; simp [h1]

/-- C1: for every order created by a checkout, `total_cents` equals the sum of
its items' `subtotal_cents` and every item's `subtotal_cents` equals
`unit_price_cents * qty`; the invariant holds at creation
(`create_order` applied to any cart summary) and is preserved by the whole
checkout pipeline, by admin `change_order_status` and by customer
`cancel_order`, i.e. by every later status transition. -/
theorem C1_order_money_invariant :
    (∀ (uid : Nat) (products : List Product) (cart : Cart) (oid : Nat) (now : Int),
      order_invariant (create_order uid (get_cart_summary products cart) oid now)) ∧
    (∀ (uid : Nat) (approved : Bool) (now : Int) (st : St) (r : CheckoutResult)
        (st' : St), orders_invariant st →
        process_checkout uid approved now st = some (r, st') → orders_invariant st') ∧
    (∀ (oid : Nat) (ns : Option String) (st : St), orders_invariant st →
        orders_invariant (change_order_status oid ns st).2) ∧
    (∀ (cu : Nat) (role : Option String) (oid : Nat) (st : St), orders_invariant st →
        orders_invariant (cancel_order cu role oid st).2) := by
  refine ⟨create_order_invariant, ?_, ?_, ?_⟩
  · intro uid approved now st r st' hinv hpc
    by_cases hc : (get_cart_summary st.products st.cart).item_count = 0
    · rw [process_checkout_empty uid approved now st hc] at hpc
      obtain ⟨-, rfl⟩ : r = .failure "Cart is empty." ∧ st' = st := by
        simpa using hpc.symm
      exact hinv
    · cases hval : validate_stock st.products (get_cart_summary st.products st.cart).items with
      | error msg =>
        rw [process_checkout_invalid uid approved now st msg hval] at hpc
        obtain ⟨-, rfl⟩ : r = .failure msg ∧ st' = st := by simpa using hpc.symm
        exact hinv
      | ok u =>
        cases u
        rw [process_checkout_reserved uid approved now st hc hval] at hpc
        simp only [Option.some.injEq, Prod.mk.injEq] at hpc
        obtain ⟨-, hst'⟩ := hpc
        subst hst'
        intro o ho
        refine orders_invariant_set_order_status _ _ _ ?_ o ho
        intro o2 ho2
        rcases List.mem_append.mp ho2 with hold | hnew
        · exact hinv o2 hold
        · rw [List.mem_singleton.mp hnew]
          exact create_order_invariant uid st.products st.cart st.next_order_id now
  · intro oid ns st hinv o ho
    rcases change_order_status_orders oid ns st with heq | ⟨s, heq⟩
    · rw [heq] at ho; exact hinv o ho
    · rw [heq] at ho
      exact orders_invariant_set_order_status st.orders oid s hinv o ho
  · intro cu role oid st hinv o ho
    rcases cancel_order_orders cu role oid st with heq | heq
    · rw [heq] at ho; exact hinv o ho
    · rw [heq] at ho
      exact orders_invariant_set_order_status st.orders oid "canceled" hinv o ho

/-- Example product for concrete witnesses (the spec's Scenario A product:
`price_cents = 500`, `qty = 10`, active). -/
def prodA : Product :=
  { id := 1, name := "Alpha", sku := "SKU-A", price_cents := 500, qty := 10,
    status := "active", image_url := "img" }

/-- Example state: product A in stock 10, cart `{A: 2}` (Scenario A). -/
def stA : St :=
  { products := [prodA], orders := [], cart := [(1, 2)], next_order_id := 1 }

/-- The state after a successful checkout from `stA` (user 7, time 0). -/
def stA_paid : St :=
  { products := [{ prodA with qty := 8 }]
    orders := [{ id := 1, user_id := 7, status := "paid", total_cents := 1000,
                 placed_at := 0,
                 items := [{ order_id := 1, product_id := 1, unit_price_cents := 500,
                             qty := 2, subtotal_cents := 1000 }] }]
    cart := []
    next_order_id := 2 }

/-- Witness for C1: the checkout pipeline run on the concrete Scenario A state
produces a state whose orders all satisfy the money invariant, and an admin
status change preserves it. -/
theorem C1_order_money_invariant_witness :
    orders_invariant stA_paid ∧
    orders_invariant (change_order_status 1 (some "shipped") stA_paid).2 := by
  constructor
  · exact C1_order_money_invariant.2.1 7 true 0 stA (.success 1 1000 259200)
      stA_paid (by decide) (by decide)
  · exact C1_order_money_invariant.2.2.1 1 (some "shipped") stA_paid (by decide)

/-- C2: when the payment gateway declines after the reserve step (nonempty
cart, stock validation passed), `process_checkout` returns
`{success: false, error: "Payment declined."}`, the created order ends up
with status `canceled`, and the product table is exactly the post-deduction
one: no stock is restored on this path. -/
theorem C2_payment_declined_no_restock (uid : Nat) (now : Int) (st : St)
    (hne : (get_cart_summary st.products st.cart).item_count ≠ 0)
    (hval : validate_stock st.products (get_cart_summary st.products st.cart).items
      = .ok ()) :
    ∃ products1,
      deduct_stock st.products (get_cart_summary st.products st.cart).items
        = some products1 ∧
      ∃ st', process_checkout uid false now st
          = some (.failure "Payment declined.", st') ∧
        st'.products = products1 ∧
        { create_order uid (get_cart_summary st.products st.cart) st.next_order_id now
            with status := "canceled" } ∈ st'.orders := by
  have hded := deduct_stock_eq st.products _ (validate_stock_ok_mem st.products _ hval)
  have h := process_checkout_reserved uid false now st hne hval
  simp only [Bool.false_eq_true, if_false, ite_false] at h
  refine ⟨_, hded, _, h, rfl, ?_⟩
  apply set_order_status_mem_of_mem
  · exact List.mem_append_right _ (List.mem_singleton_self _)
  · rfl

/-- Witness for C2 on the concrete Scenario A state. -/
theorem C2_payment_declined_no_restock_witness :
    ∃ products1,
      deduct_stock stA.products (get_cart_summary stA.products stA.cart).items
        = some products1 ∧
      ∃ st', process_checkout 7 false 0 stA
          = some (.failure "Payment declined.", st') ∧
        st'.products = products1 ∧
        { create_order 7 (get_cart_summary stA.products stA.cart) stA.next_order_id 0
            with status := "canceled" } ∈ st'.orders :=
  C2_payment_declined_no_restock 7 0 stA (by decide) (by rfl)

/-- C4: if stock validation fails for any cart line item, `process_checkout`
returns a failure carrying the guard's message and the entire state — orders,
products, cart — is returned unchanged: no order is created and no stock is
touched. -/
theorem C4_validation_failure_no_mutation (uid : Nat) (approved : Bool)
    (now : Int) (st : St) (msg : String)
    (hval : validate_stock st.products (get_cart_summary st.products st.cart).items
      = .error msg) :
    process_checkout uid approved now st = some (.failure msg, st) :=
  process_checkout_invalid uid approved now st msg hval

/-- Example product for Scenario B: only 1 unit in stock. -/
def prodB : Product :=
  { id := 2, name := "Beta", sku := "SKU-B", price_cents := 300, qty := 1,
    status := "active", image_url := "" }

/-- Scenario B state: `B.qty = 1`, cart `{B: 2}`. -/
def stB : St :=
  { products := [prodB], orders := [], cart := [(2, 2)], next_order_id := 1 }

/-- Witness for C4 on the Scenario B state: insufficient stock fails the
checkout verbatim and leaves the state untouched. -/
theorem C4_validation_failure_no_mutation_witness :
    process_checkout 7 true 0 stB
      = some (.failure "Insufficient stock for product 2 (\x27Beta\x27).", stB) :=
  C4_validation_failure_no_mutation 7 true 0 stB
    "Insufficient stock for product 2 (\x27Beta\x27)." (by rfl)

/-- C5: an admin request moving a shipped order to canceled is rejected with
a 400 rule-violation error and the state (the order's status and every
product's stock) is unchanged. -/
theorem C5_shipped_cannot_cancel (oid : Nat) (st : St) (o : Order)
    (hf : find_order st.orders oid = some o) (hs : o.status = "shipped") :
    change_order_status oid (some "canceled") st
      = (.err 400 "Cannot cancel a shipped order", st) := by
  unfold change_order_status
  simp only [hf]
  rw [if_neg (by decide : ¬ ("canceled" : String) ∉ ALLOWED_STATUSES),
    if_pos ⟨hs, trivial⟩]

/-- A shipped example order over product A. -/
def orderShipped : Order :=
  { id := 5, user_id := 2, status := "shipped", total_cents := 1000, placed_at := 0,
    items := [{ order_id := 5, product_id := 1, unit_price_cents := 500,
                qty := 2, subtotal_cents := 1000 }] }

/-- State holding the shipped example order. -/
def stShip : St :=
  { products := [prodA], orders := [orderShipped], cart := [], next_order_id := 6 }

/-- Witness for C5 at the concrete shipped order. -/
theorem C5_shipped_cannot_cancel_witness :
    change_order_status 5 (some "canceled") stShip
      = (.err 400 "Cannot cancel a shipped order", stShip) :=
  C5_shipped_cannot_cancel 5 stShip orderShipped (by rfl) (by rfl)

/-- C6: admin change to canceled from a previous status that is neither
shipped nor canceled restores each item's qty to its product's stock
(products not in the table are skipped silently — per product the new qty is
the old one plus the summed qty of the order's items for that product id) and
sets the status to canceled; re-setting a canceled order to canceled performs
no restoration. -/
theorem C6_cancel_restores_stock (oid : Nat) (st : St) (o : Order)
    (hf : find_order st.orders oid = some o) :
    (o.status ≠ "shipped" → o.status ≠ "canceled" →
      change_order_status oid (some "canceled") st
        = (.ok { o with status := "canceled" },
           { st with
             products := restore_stock st.products o.items
             orders := set_order_status st.orders oid "canceled" }) ∧
      restore_stock st.products o.items
        = st.products.map (fun p =>
            { p with qty := p.qty + order_qty_for o.items p.id })) ∧
    (o.status = "canceled" →
      change_order_status oid (some "canceled") st
        = (.ok { o with status := "canceled" },
           { st with orders := set_order_status st.orders oid "canceled" })) := by
  constructor
  · intro h1 h2
    refine ⟨?_, restore_stock_eq st.products o.items⟩
    unfold change_order_status
    simp only [hf]
    rw [if_neg (by decide : ¬ ("canceled" : String) ∉ ALLOWED_STATUSES),
      if_neg (fun hc => h1 hc.1),
      if_pos ⟨trivial, h2⟩]
  · intro hs
    unfold change_order_status
    simp only [hf]
    rw [if_neg (by decide : ¬ ("canceled" : String) ∉ ALLOWED_STATUSES),
      if_neg (fun hc => by rw [hs] at hc; exact absurd hc.1 (by decide)),
      if_neg (fun hc => hc.2 hs)]

/-- A pending example order over product A. -/
def orderPending : Order :=
  { id := 7, user_id := 2, status := "pending", total_cents := 1000, placed_at := 0,
    items := [{ order_id := 7, product_id := 1, unit_price_cents := 500,
                qty := 2, subtotal_cents := 1000 }] }

/-- An already-canceled example order over product A. -/
def orderCanceled : Order :=
  { id := 8, user_id := 2, status := "canceled", total_cents := 500, placed_at := 0,
    items := [{ order_id := 8, product_id := 1, unit_price_cents := 500,
                qty := 1, subtotal_cents := 500 }] }

/-- State holding a pending and an already-canceled order. -/
def stMix : St :=
  { products := [prodA], orders := [orderPending, orderCanceled], cart := [],
    next_order_id := 9 }

/-- Witness for C6: canceling the pending order restores stock; re-canceling
the canceled order does not. -/
theorem C6_cancel_restores_stock_witness :
    (change_order_status 7 (some "canceled") stMix
        = (.ok { orderPending with status := "canceled" },
           { stMix with
             products := restore_stock stMix.products orderPending.items
             orders := set_order_status stMix.orders 7 "canceled" }) ∧
      restore_stock stMix.products orderPending.items
        = stMix.products.map (fun p =>
            { p with qty := p.qty + order_qty_for orderPending.items p.id })) ∧
    change_order_status 8 (some "canceled") stMix
      = (.ok { orderCanceled with status := "canceled" },
         { stMix with orders := set_order_status stMix.orders 8 "canceled" }) :=
  ⟨(C6_cancel_restores_stock 7 stMix orderPending (by rfl)).1
      (by decide) (by decide),
   (C6_cancel_restores_stock 8 stMix orderCanceled (by rfl)).2 (by rfl)⟩

theorem user_can_access_order_false (cu : Nat) (role : Option String) (o : Order)
    (h1 : role ≠ some "admin") (h2 : o.user_id ≠ cu) :
    user_can_access_order cu role o = false := by
  unfold user_can_access_order
  rw [if_neg (by simpa using h1)]
  simpa using h2

/-- C7: customer-facing cancel returns 404 for a missing order, 403 when the
actor is neither admin nor owner, 400 when the order is not pending — each
time with the state unchanged — and on success restores each item's qty to
its product's stock (per product: old qty plus the summed item qty for that
product id) and sets the status to canceled. -/
theorem C7_cancel_order_guards (cu : Nat) (role : Option String) (oid : Nat)
    (st : St) :
    (find_order st.orders oid = none →
       cancel_order cu role oid st = (.err 404 "Order not found", st)) ∧
    (∀ o, find_order st.orders oid = some o →
       role ≠ some "admin" → o.user_id ≠ cu →
       cancel_order cu role oid st = (.err 403 "Forbidden", st)) ∧
    (∀ o, find_order st.orders oid = some o →
       user_can_access_order cu role o = true → o.status ≠ "pending" →
       cancel_order cu role oid st
         = (.err 400 "Only pending orders can be canceled", st)) ∧
    (∀ o, find_order st.orders oid = some o →
       user_can_access_order cu role o = true → o.status = "pending" →
       cancel_order cu role oid st
         = (.ok { o with status := "canceled" },
            { st with
              products := restore_stock st.products o.items
              orders := set_order_status st.orders oid "canceled" }) ∧
       restore_stock st.products o.items
         = st.products.map (fun p =>
             { p with qty := p.qty + order_qty_for o.items p.id })) := by
  refine ⟨?_, ?_, ?_, ?_⟩
  · intro hf
    unfold cancel_order
    simp only [hf]
  · intro o hf hrole howner
    unfold cancel_order
    simp only [hf, user_can_access_order_false cu role o hrole howner]
    rw [if_pos (by simp)]
  · intro o hf hacc hs
    unfold cancel_order
    simp only [hf, hacc]
    rw [if_neg (by simp), if_pos hs]
  · intro o hf hacc hs
    refine ⟨?_, restore_stock_eq st.products o.items⟩
    unfold cancel_order
    simp only [hf, hacc]
    rw [if_neg (by simp), if_neg (by simp [hs])]

/-- Witness for C7: all four branches at concrete states — missing order,
foreign customer, non-pending order, and a successful owner cancel. -/
theorem C7_cancel_order_guards_witness :
    cancel_order 2 (some "customer") 99 stMix = (.err 404 "Order not found", stMix) ∧
    cancel_order 3 (some "customer") 7 stMix = (.err 403 "Forbidden", stMix) ∧
    cancel_order 2 (some "customer") 8 stMix
      = (.err 400 "Only pending orders can be canceled", stMix) ∧
    cancel_order 2 (some "customer") 7 stMix
      = (.ok { orderPending with status := "canceled" },
         { stMix with
           products := restore_stock stMix.products orderPending.items
           orders := set_order_status stMix.orders 7 "canceled" }) :=
  ⟨(C7_cancel_order_guards 2 (some "customer") 99 stMix).1 (by rfl),
   (C7_cancel_order_guards 3 (some "customer") 7 stMix).2.1 orderPending
      (by rfl) (by decide) (by decide),
   (C7_cancel_order_guards 2 (some "customer") 8 stMix).2.2.1 orderCanceled
      (by rfl) (by decide) (by decide),
   ((C7_cancel_order_guards 2 (some "customer") 7 stMix).2.2.2 orderPending
      (by rfl) (by decide) (by decide)).1⟩

/-- C8: when the gateway approves, `process_checkout` sets the order to
`paid`, clears the cart (the subsequent summary is exactly empty), decreases
each purchased product's qty by exactly the purchased quantity, and returns
success with the order id, the order's total and a delivery estimate of
`now + 3 days`. -/
theorem C8_checkout_success (uid : Nat) (now : Int) (st : St)
    (hne : (get_cart_summary st.products st.cart).item_count ≠ 0)
    (hval : validate_stock st.products (get_cart_summary st.products st.cart).items
      = .ok ())
    (hnd : (st.cart.map Prod.fst).Nodup) :
    ∃ st', process_checkout uid true now st
        = some (.success st.next_order_id
            (get_cart_summary st.products st.cart).total_cents
            (now + 3 * seconds_per_day), st') ∧
      st'.cart = [] ∧
      get_cart_summary st'.products st'.cart
        = { items := [], total_cents := 0, item_count := 0 } ∧
      st'.products = st.products.map (fun p =>
        { p with qty := p.qty
            - cart_qty_for (get_cart_summary st.products st.cart).items p.id }) ∧
      (∀ it ∈ (get_cart_summary st.products st.cart).items, ∀ p ∈ st.products,
        p.id = it.product_id → { p with qty := p.qty - it.qty } ∈ st'.products) ∧
      { create_order uid (get_cart_summary st.products st.cart) st.next_order_id now
          with status := "paid" } ∈ st'.orders ∧
      (create_order uid (get_cart_summary st.products st.cart)
          st.next_order_id now).total_cents
        = (get_cart_summary st.products st.cart).total_cents := by
  have h := process_checkout_reserved uid true now st hne hval
  simp only [if_pos, ite_true] at h
  refine ⟨_, h, rfl, by simp [get_cart_summary], rfl, ?_, ?_, rfl⟩
  · intro it hit p hp hpe
    have hq : cart_qty_for (get_cart_summary st.products st.cart).items it.product_id
        = it.qty :=
      cart_qty_for_of_nodup _ (summary_pids_nodup st.products st.cart hnd) it hit
    have : { p with qty := p.qty
        - cart_qty_for (get_cart_summary st.products st.cart).items p.id }
        = { p with qty := p.qty - it.qty } := by
      rw [hpe, hq]
    exact this ▸ List.mem_map_of_mem _ hp
  · apply set_order_status_mem_of_mem
    · exact List.mem_append_right _ (List.mem_singleton_self _)
    · rfl

/-- Witness for C8 on the Scenario A state: total 1000, stock 10→8, cart
cleared, delivery estimate `0 + 3 days`. -/
theorem C8_checkout_success_witness :
    ∃ st', process_checkout 7 true 0 stA
        = some (.success stA.next_order_id
            (get_cart_summary stA.products stA.cart).total_cents
            (0 + 3 * seconds_per_day), st') ∧
      st'.cart = [] ∧
      get_cart_summary st'.products st'.cart
        = { items := [], total_cents := 0, item_count := 0 } ∧
      st'.products = stA.products.map (fun p =>
        { p with qty := p.qty
            - cart_qty_for (get_cart_summary stA.products stA.cart).items p.id }) ∧
      (∀ it ∈ (get_cart_summary stA.products stA.cart).items, ∀ p ∈ stA.products,
        p.id = it.product_id → { p with qty := p.qty - it.qty } ∈ st'.products) ∧
      { create_order 7 (get_cart_summary stA.products stA.cart) stA.next_order_id 0
          with status := "paid" } ∈ st'.orders ∧
      (create_order 7 (get_cart_summary stA.products stA.cart)
          stA.next_order_id 0).total_cents
        = (get_cart_summary stA.products stA.cart).total_cents :=
  C8_checkout_success 7 0 stA (by decide) (by rfl) (by decide)

theorem mk_cart_line_none_iff (products : List Product) (e : Nat × Int) :
    mk_cart_line products e = none ↔
      products.find? (fun p => p.id == e.1 && p.status == "active") = none := by
  unfold mk_cart_line
  cases products.find? (fun p => p.id == e.1 && p.status == "active") <;> simp

/-- C9: `get_cart_summary` silently drops entries whose product is missing or
not active (exactly the entries with no active product produce no line item,
without any error), clamps every remaining quantity to at least 1, and on the
empty cart returns exactly `{items: [], totalCents: 0, itemCount: 0}`. -/
theorem C9_summary_drops_and_clamps (products : List Product) (cart : Cart) :
    get_cart_summary products []
      = { items := [], total_cents := 0, item_count := 0 } ∧
    (∀ it ∈ (get_cart_summary products cart).items,
       1 ≤ it.qty ∧ ∃ p ∈ products, p.id = it.product_id ∧ p.status = "active") ∧
    (get_cart_summary products cart).items.length
       + (cart.countP (fun e =>
           (products.find? (fun p => p.id == e.1 && p.status == "active")).isNone))
       = cart.length := by
  refine ⟨rfl, ?_, ?_⟩
  · intro it hit
    have h := summary_items_shape products cart it hit
    exact ⟨h.1, h.2.2⟩
  · rw [get_cart_summary_items]
    induction cart with
    | nil => rfl
    | cons e rest ih =>
      rw [List.filterMap_cons, List.countP_cons]
      cases hmk : mk_cart_line products e with
      | none =>
        have hfind := (mk_cart_line_none_iff products e).mp hmk
        simp only [hmk, hfind, Option.isNone_none, List.length_cons, if_true]
        omega
      | some it =>
        have hfind : (products.find?
            (fun p => p.id == e.1 && p.status == "active")).isNone = false := by
          cases hf : products.find? (fun p => p.id == e.1 && p.status == "active") with
          | none => rw [(mk_cart_line_none_iff products e).mpr hf] at hmk; cases hmk
          | some p => rfl
        simp only [hmk, hfind, List.length_cons, Bool.false_eq_true, if_false, ite_false]
        omega

/-- An archived example product (not active, so dropped from summaries). -/
def prodArchived : Product :=
  { id := 3, name := "Gamma", sku := "SKU-C", price_cents := 700, qty := 4,
    status := "archived", image_url := "" }

/-- A cart referencing an active product with qty 0 (to be clamped), an
archived product and a missing product id. -/
def cartMixed : Cart := [(1, 0), (3, 2), (42, 1)]

/-- Witness for C9: the archived and missing entries are dropped (1 of 3
entries survives) and the empty cart gives the exact empty summary. -/
theorem C9_summary_drops_and_clamps_witness :
    get_cart_summary [prodA, prodArchived] []
      = { items := [], total_cents := 0, item_count := 0 } ∧
    (get_cart_summary [prodA, prodArchived] cartMixed).items.length
       + (cartMixed.countP (fun e =>
           (([prodA, prodArchived].find?
              (fun p => p.id == e.1 && p.status == "active"))).isNone))
       = cartMixed.length :=
  ⟨(C9_summary_drops_and_clamps [prodA, prodArchived] cartMixed).1,
   (C9_summary_drops_and_clamps [prodA, prodArchived] cartMixed).2.2⟩

theorem restore_stock_ids (products : List Product) (items : List OrderItem) :
    (restore_stock products items).map Product.id = products.map Product.id := by
  rw [restore_stock_eq, List.map_map]
  rfl

theorem deducted_ids (products : List Product) (items : List CartLineItem) :
    (products.map (fun p =>
      { p with qty := p.qty - cart_qty_for items p.id })).map Product.id
      = products.map Product.id := by
  rw [List.map_map]
  rfl

theorem restore_stock_nonneg (products : List Product) (items : List OrderItem)
    (hp : ∀ p ∈ products, 0 ≤ p.qty) (hi : ∀ it ∈ items, 0 ≤ it.qty) :
    ∀ p ∈ restore_stock products items, 0 ≤ p.qty := by
  rw [restore_stock_eq]
  intro p hmem
  obtain ⟨q, hq, rfl⟩ := List.mem_map.mp hmem
  exact add_nonneg (hp q hq) (order_qty_for_nonneg items hi q.id)

theorem deducted_nonneg (products : List Product) (cart : Cart)
    (hnd_cart : (cart.map Prod.fst).Nodup)
    (hnd_prod : (products.map Product.id).Nodup)
    (hval : validate_stock products (get_cart_summary products cart).items = .ok ())
    (hp : ∀ p ∈ products, 0 ≤ p.qty) :
    ∀ p ∈ products,
      0 ≤ p.qty - cart_qty_for (get_cart_summary products cart).items p.id := by
  intro p hmem
  by_cases hex : ∃ it ∈ (get_cart_summary products cart).items, it.product_id = p.id
  · obtain ⟨it, hit, hpe⟩ := hex
    have hq : cart_qty_for (get_cart_summary products cart).items it.product_id
        = it.qty :=
      cart_qty_for_of_nodup _ (summary_pids_nodup products cart hnd_cart) it hit
    rw [hpe] at hq
    rw [hq]
    obtain ⟨q, hfind, -, hle⟩ :=
      validate_stock_ok products (get_cart_summary products cart).items hval it hit
    rw [hpe] at hfind
    have hqp : q = p := find_product_eq products hnd_prod p hmem q hfind
    rw [hqp] at hle
    omega
  · rw [cart_qty_for_of_not_mem _ p.id (fun it hit hc => hex ⟨it, hit, hc⟩)]
    simpa using hp p hmem

theorem set_order_status_items_nonneg (orders : List Order) (oid : Nat) (s : String)
    (h : ∀ o ∈ orders, ∀ it ∈ o.items, 0 ≤ it.qty) :
    ∀ o ∈ set_order_status orders oid s, ∀ it ∈ o.items, 0 ≤ it.qty := by
  intro o ho
  obtain ⟨o2, ho2, heq⟩ := mem_set_order_status orders oid s o ho
  rcases heq with h1 | h1 <;> rw [h1] <;> exact h o2 ho2

theorem change_order_status_cases (oid : Nat) (ns : Option String) (st : St) :
    (change_order_status oid ns st).2 = st ∨
    ∃ o ∈ st.orders, ∃ s products1,
      (products1 = st.products ∨ products1 = restore_stock st.products o.items) ∧
      (change_order_status oid ns st).2
        = { st with products := products1
                    orders := set_order_status st.orders oid s } := by
  unfold change_order_status
  cases hf : find_order st.orders oid with
  | none => left; simp [hf]
  | some o =>
    have hmem : o ∈ st.orders := List.mem_of_find?_eq_some hf
    simp only [hf]
    cases ns with
    | none => left; rfl
    | some s =>
      dsimp only
      by_cases h1 : s ∉ ALLOWED_STATUSES
      · left; rw [if_pos h1]
      · rw [if_neg h1]
        by_cases h2 : o.status = "shipped" ∧ s = "canceled"
        · left; rw [if_pos h2]
        · rw [if_neg h2]
          right
          by_cases h3 : s = "canceled" ∧ o.status ≠ "canceled"
          · exact ⟨o, hmem, s, restore_stock st.products o.items, Or.inr rfl,
              by rw [if_pos h3]⟩
          · exact ⟨o, hmem, s, st.products, Or.inl rfl, by rw [if_neg h3]⟩

theorem cancel_order_cases (cu : Nat) (role : Option String) (oid : Nat) (st : St) :
    (cancel_order cu role oid st).2 = st ∨
    ∃ o ∈ st.orders, (cancel_order cu role oid st).2
      = { st with products := restore_stock st.products o.items
                  orders := set_order_status st.orders oid "canceled" } := by
  unfold cancel_order
  cases hf : find_order st.orders oid with
  | none => left; simp [hf]
  | some o =>
    have hmem : o ∈ st.orders := List.mem_of_find?_eq_some hf
    simp only [hf]
    by_cases h1 : user_can_access_order cu role o = true
    · by_cases h2 : o.status = "pending"
      · right
        refine ⟨o, hmem, ?_⟩
        rw [if_neg (not_not_intro h1), if_neg (not_not_intro h2)]
      · left
        rw [if_neg (not_not_intro h1), if_pos h2]
    · left
      rw [if_pos h1]

/-- Well-formedness of a state: no product has negative stock, no order item
has negative quantity, the session cart has unique keys (it is a Python
dict), and product ids are unique (primary key). -/
def state_wf (st : St) : Prop :=
  (∀ p ∈ st.products, 0 ≤ p.qty) ∧
  (∀ o ∈ st.orders, ∀ it ∈ o.items, 0 ≤ it.qty) ∧
  (st.cart.map Prod.fst).Nodup ∧
  (st.products.map Product.id).Nodup

instance (st : St) : Decidable (state_wf st) := by
  unfold state_wf; infer_instance

/-- C3: under sequential execution, no product's qty ever becomes negative:
state well-formedness (which includes `0 ≤ qty` for every product) is
preserved by the checkout pipeline — stock is deducted only after
`_validate_stock` has confirmed `product.qty ≥ requested qty` for every line
item — and by the two cancellation operations, whose restoration only adds
to stock. -/
theorem C3_stock_never_negative :
    (∀ (uid : Nat) (approved : Bool) (now : Int) (st : St) (r : CheckoutResult)
        (st' : St), state_wf st →
        process_checkout uid approved now st = some (r, st') → state_wf st') ∧
    (∀ (oid : Nat) (ns : Option String) (st : St),
        state_wf st → state_wf (change_order_status oid ns st).2) ∧
    (∀ (cu : Nat) (role : Option String) (oid : Nat) (st : St),
        state_wf st → state_wf (cancel_order cu role oid st).2) := by
  refine ⟨?_, ?_, ?_⟩
  · intro uid approved now st r st' hwf hpc
    obtain ⟨hp, ho, hcart, hids⟩ := hwf
    by_cases hc : (get_cart_summary st.products st.cart).item_count = 0
    · rw [process_checkout_empty uid approved now st hc] at hpc
      obtain ⟨-, rfl⟩ : r = .failure "Cart is empty." ∧ st' = st := by
        simpa using hpc.symm
      exact ⟨hp, ho, hcart, hids⟩
    · cases hval : validate_stock st.products
          (get_cart_summary st.products st.cart).items with
      | error msg =>
        rw [process_checkout_invalid uid approved now st msg hval] at hpc
        obtain ⟨-, rfl⟩ : r = .failure msg ∧ st' = st := by simpa using hpc.symm
        exact ⟨hp, ho, hcart, hids⟩
      | ok u =>
        cases u
        rw [process_checkout_reserved uid approved now st hc hval] at hpc
        simp only [Option.some.injEq, Prod.mk.injEq] at hpc
        obtain ⟨-, hst'⟩ := hpc
        subst hst'
        refine ⟨?_, ?_, ?_, ?_⟩
        · intro p hmem
          obtain ⟨q, hq, rfl⟩ := List.mem_map.mp hmem
          exact deducted_nonneg st.products st.cart hcart hids hval hp q hq
        · refine set_order_status_items_nonneg _ _ _ ?_
          intro o2 ho2
          rcases List.mem_append.mp ho2 with hold | hnew
          · exact ho o2 hold
          · rw [List.mem_singleton.mp hnew]
            intro it hit
            simp only [create_order, List.mem_map] at hit
            obtain ⟨cit, hcit, rfl⟩ := hit
            have := (summary_items_shape st.products st.cart cit hcit).1
            simp only
            omega
        · cases approved <;> simp [hcart]
        · rw [deducted_ids]
          exact hids
  · intro oid ns st hwf
    obtain ⟨hp, ho, hcart, hids⟩ := hwf
    rcases change_order_status_cases oid ns st with heq | ⟨o, hmem, s, products1, hpr, heq⟩
    · rw [heq]; exact ⟨hp, ho, hcart, hids⟩
    · rw [heq]
      refine ⟨?_, set_order_status_items_nonneg st.orders oid s ho, hcart, ?_⟩
      · rcases hpr with rfl | rfl
        · exact hp
        · exact restore_stock_nonneg st.products o.items hp (ho o hmem)
      · rcases hpr with rfl | rfl
        · exact hids
        · rw [restore_stock_ids]; exact hids
  · intro cu role oid st hwf
    obtain ⟨hp, ho, hcart, hids⟩ := hwf
    rcases cancel_order_cases cu role oid st with heq | ⟨o, hmem, heq⟩
    · rw [heq]; exact ⟨hp, ho, hcart, hids⟩
    · rw [heq]
      exact ⟨restore_stock_nonneg st.products o.items hp (ho o hmem),
        set_order_status_items_nonneg st.orders oid "canceled" ho, hcart,
        by rw [restore_stock_ids]; exact hids⟩

/-- Witness for C3: well-formedness (in particular nonnegative stock) after
a concrete successful checkout and after a concrete customer cancel. -/
theorem C3_stock_never_negative_witness :
    state_wf stA_paid ∧ state_wf (cancel_order 2 (some "customer") 7 stMix).2 :=
  ⟨C3_stock_never_negative.1 7 true 0 stA (.success 1 1000 259200) stA_paid
      (by decide) (by decide),
   C3_stock_never_negative.2.2 2 (some "customer") 7 stMix (by decide)⟩

/-- C10: a POST /checkout request with no authenticated session user is not
rejected: the route behaves exactly as it does for user 1 (the seeded
admin/test user), every result it returns is the pipeline's own result run
with `user_id = 1`, and any order in the resulting state that is not carried
over from the previous state has `user_id = 1`. -/
theorem C10_checkout_defaults_to_user_one (approved : Bool) (now : Int) (st : St) :
    checkout_process_route none approved now st
      = checkout_process_route (some 1) approved now st ∧
    (∀ (code : Nat) (r : CheckoutResult) (st' : St),
       checkout_process_route none approved now st = some ((code, r), st') →
       process_checkout 1 approved now st = some (r, st')) ∧
    (∀ (r : CheckoutResult) (st' : St),
       process_checkout 1 approved now st = some (r, st') →
       ∀ o ∈ st'.orders, o.user_id = 1 ∨ ∃ o2 ∈ st.orders, o.user_id = o2.user_id) := by
  refine ⟨rfl, ?_, ?_⟩
  · intro code r st' h
    unfold checkout_process_route at h
    dsimp only at h
    cases hpc : process_checkout (user_id_or_default none) approved now st with
    | none => rw [hpc] at h; cases h
    | some p =>
      rw [hpc] at h
      obtain ⟨r0, st0⟩ := p
      cases r0 with
      | failure e =>
        simp only [Option.some.injEq, Prod.mk.injEq] at h
        obtain ⟨⟨-, hr⟩, hst⟩ := h
        rw [← hr, ← hst]
        exact hpc
      | success oid tc de =>
        simp only [Option.some.injEq, Prod.mk.injEq] at h
        obtain ⟨⟨-, hr⟩, hst⟩ := h
        rw [← hr, ← hst]
        exact hpc
  · intro r st' hpc o hmem
    by_cases hc : (get_cart_summary st.products st.cart).item_count = 0
    · rw [process_checkout_empty 1 approved now st hc] at hpc
      obtain ⟨-, rfl⟩ : r = .failure "Cart is empty." ∧ st' = st := by
        simpa using hpc.symm
      exact Or.inr ⟨o, hmem, rfl⟩
    · cases hval : validate_stock st.products
          (get_cart_summary st.products st.cart).items with
      | error msg =>
        rw [process_checkout_invalid 1 approved now st msg hval] at hpc
        obtain ⟨-, rfl⟩ : r = .failure msg ∧ st' = st := by simpa using hpc.symm
        exact Or.inr ⟨o, hmem, rfl⟩
      | ok u =>
        cases u
        rw [process_checkout_reserved 1 approved now st hc hval] at hpc
        simp only [Option.some.injEq, Prod.mk.injEq] at hpc
        obtain ⟨-, hst'⟩ := hpc
        subst hst'
        obtain ⟨o2, ho2, heq⟩ := mem_set_order_status _ _ _ o hmem
        rcases List.mem_append.mp ho2 with hold | hnew
        · rcases heq with h1 | h1 <;> rw [h1] <;> exact Or.inr ⟨o2, hold, rfl⟩
        · rw [List.mem_singleton.mp hnew] at heq
          rcases heq with h1 | h1 <;> rw [h1] <;> exact Or.inl rfl

/-- The state after the anonymous checkout run from `stA`: the order is
attributed to user 1. -/
def stA_u1 : St :=
  { products := [{ prodA with qty := 8 }]
    orders := [{ id := 1, user_id := 1, status := "paid", total_cents := 1000,
                 placed_at := 0,
                 items := [{ order_id := 1, product_id := 1, unit_price_cents := 500,
                             qty := 2, subtotal_cents := 1000 }] }]
    cart := []
    next_order_id := 2 }

/-- Witness for C10 on the Scenario A state: the anonymous route equals the
user-1 route, and the route's 200 response is the user-1 pipeline result. -/
theorem C10_checkout_defaults_to_user_one_witness :
    checkout_process_route none true 0 stA
      = checkout_process_route (some 1) true 0 stA ∧
    process_checkout 1 true 0 stA = some (.success 1 1000 259200, stA_u1) :=
  ⟨(C10_checkout_defaults_to_user_one true 0 stA).1,
   (C10_checkout_defaults_to_user_one true 0 stA).2.1 200
      (.success 1 1000 259200) stA_u1 (by decide)⟩

end Ecommerce
